import Mathlib

/-!
Verification model of the MiniExpress HTTP server (`server.py`).

Conventions of the shallow embedding:
* Python `str` values are modelled as `List Char` (`Str`); Python `bytes` as
  `List Nat` with every element below 256 (`Bytes`).
* Python dicts (headers, query maps, the route table) are modelled as
  insertion-ordered association lists; assignment to an existing key updates
  the value in place, assignment to a fresh key appends at the end, exactly
  like an insertion-ordered Python dict.
* The client socket is modelled inside `Response`: the bytes passed to
  `sendall` are accumulated in `wire`; `breakAfter = some k` models a socket
  that raises `BrokenPipeError` on the `(k+1)`-st `sendall` call of a send,
  `none` models an intact socket.
* Exceptions that the Python code lets escape are modelled with `Except`;
  exceptions the code catches locally never surface in the types.
-/

abbrev Str := List Char

abbrev Bytes := List Nat

/-- Ordered-dict membership test (`k in d`). -/
def dictMem (d : List (Str × Str)) (k : Str) : Bool :=
  d.any (fun kv => kv.1 = k)

/-- Ordered-dict lookup (`d.get(k)` as an `Option`). -/
def dictGet? (d : List (Str × Str)) (k : Str) : Option Str :=
  match d with
  | [] => none
  | (k1, v1) :: rest => if k1 = k then some v1 else dictGet? rest k

/-- Ordered-dict lookup with default (`d.get(k, dflt)`). -/
def dictGetD (d : List (Str × Str)) (k : Str) (dflt : Str) : Str :=
  (dictGet? d k).getD dflt

/-- Ordered-dict assignment (`d[k] = v`): update in place if the key exists,
append at the end otherwise. -/
def dictSet (d : List (Str × Str)) (k v : Str) : List (Str × Str) :=
  match d with
  | [] => [(k, v)]
  | (k1, v1) :: rest => if k1 = k then (k1, v) :: rest else (k1, v1) :: dictSet rest k v

/-- UTF-8 encoding of one scalar value (faithful to `str.encode('utf-8')`
per code point). -/
def utf8Char (c : Char) : Bytes :=
  let n := c.toNat
  if n < 0x80 then [n]
  else if n < 0x800 then [0xC0 + n / 64, 0x80 + n % 64]
  else if n < 0x10000 then [0xE0 + n / 4096, 0x80 + n / 64 % 64, 0x80 + n % 64]
  else [0xF0 + n / 262144, 0x80 + n / 4096 % 64, 0x80 + n / 64 % 64, 0x80 + n % 64]

/-- UTF-8 encoding of a whole string. -/
def utf8 (s : Str) : Bytes :=
  (s.map utf8Char).flatten

/-- Decimal rendering of a natural number, as Python `str(n)` for `n ≥ 0`. -/
def natStr (n : Nat) : Str :=
  (Nat.repr n).data

/-- Argument passed to `Response.send`: `None`, a bytes-like object, or a
string (any other object is passed through `str(...)`, so it reaches the
send logic as a string as well). -/
inductive SendData
  | sNone
  | sBytes (b : Bytes)
  | sStr (s : Str)

/-- Byte normalization of the send argument (lines 107-112 of server.py). -/
def bodyBytes : SendData → Bytes
  | SendData.sNone => []
  | SendData.sBytes b => b
  | SendData.sStr s => utf8 s

/-- The response object: status line data, ordered header dict, the
`sent` finalization flag, plus the modelled socket (`wire`, `breakAfter`). -/
structure Response where
  status_code : Nat
  status_text : Str
  headers : List (Str × Str)
  sent : Bool
  wire : Bytes
  breakAfter : Option Nat

/-- A fresh `Response(client_sock)` (lines 79-84): status 200/OK, no
headers, not sent, nothing written. -/
def freshResponse (brk : Option Nat) : Response :=
  { status_code := 200, status_text := "OK".data, headers := [],
    sent := false, wire := [], breakAfter := brk }

/-- The reason-phrase table of `Response.status` (lines 87-95); unknown
codes get the empty phrase. -/
def statusTextOf (c : Nat) : Str :=
  if c = 200 then "OK".data
  else if c = 201 then "Created".data
  else if c = 202 then "Accepted".data
  else if c = 204 then "No Content".data
  else if c = 301 then "Moved Permanently".data
  else if c = 302 then "Found".data
  else if c = 400 then "Bad Request".data
  else if c = 401 then "Unauthorized".data
  else if c = 403 then "Forbidden".data
  else if c = 404 then "Not Found".data
  else if c = 500 then "Internal Server Error".data
  else []

/-- `Response.status(code)` (returns `self`, modelled functionally). -/
def Response.status (r : Response) (c : Nat) : Response :=
  { r with status_code := c, status_text := statusTextOf c }

/-- `Response.set_header(name, value)`. -/
def Response.set_header (r : Response) (k v : Str) : Response :=
  { r with headers := dictSet r.headers k v }

/-- Header-default and framing-header computation inside `Response.send`
(lines 115-124): `Content-Type` and CORS only if absent, then
`Connection: close` and `Content-Length` unconditionally. -/
def finalHeaders (hs : List (Str × Str)) (bodyLen : Nat) : List (Str × Str) :=
  let h1 := if dictMem hs ("Content-Type".data) then hs
            else dictSet hs ("Content-Type".data) ("text/plain; charset=utf-8".data)
  let h2 := if dictMem h1 ("Access-Control-Allow-Origin".data) then h1
            else dictSet h1 ("Access-Control-Allow-Origin".data) ("*".data)
  let h3 := dictSet h2 ("Connection".data) ("close".data)
  dictSet h3 ("Content-Length".data) (natStr bodyLen)

/-- One serialized header line, `f"{name}: {value}\r\n"`. -/
def headerLine (kv : Str × Str) : Str :=
  kv.1 ++ ": ".data ++ kv.2 ++ "\r\n".data

/-- The status line, `f"HTTP/1.1 {code} {text}\r\n"`. -/
def statusLine (c : Nat) (t : Str) : Str :=
  "HTTP/1.1 ".data ++ natStr c ++ [' '] ++ t ++ "\r\n".data

/-- The sequence of `sendall` calls made by `Response.send` (lines
130-140): status line, one call per header, the blank separator, and the
body when non-empty. -/
def chunksOf (c : Nat) (t : Str) (hs : List (Str × Str)) (b : Bytes) : List Bytes :=
  [utf8 (statusLine c t)] ++ hs.map (fun kv => utf8 (headerLine kv))
    ++ [utf8 ("\r\n".data)] ++ (if b = [] then [] else [b])

/-- The full byte image of one serialized HTTP response. -/
def rendered (c : Nat) (t : Str) (hs : List (Str × Str)) (b : Bytes) : Bytes :=
  (chunksOf c t hs b).flatten

/-- `Response.send(data)` (lines 102-145): no-op when already sent;
otherwise normalize the body, fix up headers, write the chunks (all of
them on an intact socket, a prefix when the socket breaks mid-way, the
`BrokenPipeError` being swallowed), and mark `sent = True` in all cases
(the `finally` block). -/
def Response.send (r : Response) (d : SendData) : Response :=
  if r.sent then r
  else
    let b := bodyBytes d
    let hs := finalHeaders r.headers b.length
    let chunks := chunksOf r.status_code r.status_text hs b
    let written := match r.breakAfter with
      | none => chunks
      | some k => chunks.take k
    { r with headers := hs, sent := true, wire := r.wire ++ written.flatten }

/-- `Response.json(obj)` (lines 148-154). Serialization of `obj` is
modelled by the resulting string `body` (both the `json.dumps` branch and
the `str(obj)` fallback of the bare `except` produce a Python `str`, so
the rest of the method only ever sees a string). Note the `Content-Type`
assignment happens unconditionally, before `send` checks `sent`. -/
def Response.json (r : Response) (body : Str) : Response :=
  Response.send
    { r with headers := dictSet r.headers ("Content-Type".data)
                          ("application/json; charset=utf-8".data) }
    (SendData.sStr body)

/-- Does `p` occur at the start of `s`? (Python `s.startswith(p)`.) -/
def hasPfx : Str → Str → Bool
  | [], _ => true
  | _ :: _, [] => false
  | c :: p, d :: s => c = d && hasPfx p s

/-- Does `needle` occur contiguously inside `hay`? (Python `needle in hay`.) -/
def strContains : Str → Str → Bool
  | hay, needle =>
    match hay with
    | [] => needle = []
    | _ :: rest => hasPfx needle hay || strContains rest needle

/-- Python `str.split(sep)` for a one-character separator: always returns
at least one piece, empty pieces preserved. -/
def splitOn (sep : Char) (s : Str) : List Str :=
  s.foldr (fun c acc =>
    match acc with
    | p :: ps => if c = sep then [] :: p :: ps else (c :: p) :: ps
    | [] => [[c]]) [[]]

/-- Python `str.split(sep, 1)`: split at the first occurrence of `sep`,
`none` when `sep` does not occur. -/
def splitFirst (sep : Char) : Str → Option (Str × Str)
  | [] => none
  | c :: rest =>
    if c = sep then some ([], rest)
    else (splitFirst sep rest).map (fun pr => (c :: pr.1, pr.2))

/-- ASCII whitespace as recognized by Python `str.strip()`/`str.split()`. -/
def isWs (c : Char) : Bool :=
  c = ' ' || c = '\t' || c = '\n' || c = '\r' || c = Char.ofNat 11 || c = Char.ofNat 12

/-- Python `str.strip()` (whitespace from both ends). -/
def stripWs (s : Str) : Str :=
  ((s.dropWhile isWs).reverse.dropWhile isWs).reverse

/-- Python `str.strip(ch)` for one character, both ends. -/
def stripChar (ch : Char) (s : Str) : Str :=
  ((s.dropWhile (fun c => c = ch)).reverse.dropWhile (fun c => c = ch)).reverse

/-- Python `str.lstrip(ch)` for one character. -/
def lstripChar (ch : Char) (s : Str) : Str :=
  s.dropWhile (fun c => c = ch)

/-- Python `str.rstrip(ch)` for one character. -/
def rstripChar (ch : Char) (s : Str) : Str :=
  (s.reverse.dropWhile (fun c => c = ch)).reverse

/-- Python `str.split()` with no argument: split on whitespace runs,
discarding empty fields. -/
def splitWs (s : Str) : List Str :=
  (s.foldr (fun c acc =>
    if isWs c then [] :: acc
    else match acc with
      | p :: ps => (c :: p) :: ps
      | [] => [[c]]) [[]]).filter (fun p => decide (p ≠ []))

/-- Value of a hexadecimal digit, as accepted by `urllib.parse.unquote`. -/
def hexVal (c : Char) : Option Nat :=
  let n := c.toNat
  if 48 ≤ n && n ≤ 57 then some (n - 48)
  else if 97 ≤ n && n ≤ 102 then some (n - 87)
  else if 65 ≤ n && n ≤ 70 then some (n - 55)
  else none

/-- One decoded UTF-8 unit: `some` a scalar, `none` an invalid (maximal
subpart) error unit. Mirrors CPython's incremental UTF-8 decoder, which
`bytes.decode` error handlers consume one error unit at a time. -/
def utf8Units : Bytes → List (Option Char)
  | [] => []
  | b :: bs =>
    if b < 0x80 then some (Char.ofNat b) :: utf8Units bs
    else if 0xC2 ≤ b && b ≤ 0xDF then
      match bs with
      | b1 :: bs1 =>
        if 0x80 ≤ b1 && b1 < 0xC0 then
          some (Char.ofNat ((b - 0xC0) * 64 + (b1 - 0x80))) :: utf8Units bs1
        else none :: utf8Units (b1 :: bs1)
      | [] => [none]
    else if 0xE0 ≤ b && b ≤ 0xEF then
      match bs with
      | b1 :: bs1 =>
        if (if b = 0xE0 then 0xA0 ≤ b1 && b1 ≤ 0xBF
            else if b = 0xED then 0x80 ≤ b1 && b1 ≤ 0x9F
            else 0x80 ≤ b1 && b1 < 0xC0) then
          match bs1 with
          | b2 :: bs2 =>
            if 0x80 ≤ b2 && b2 < 0xC0 then
              some (Char.ofNat ((b - 0xE0) * 4096 + (b1 - 0x80) * 64 + (b2 - 0x80)))
                :: utf8Units bs2
            else none :: utf8Units (b2 :: bs2)
          | [] => [none]
        else none :: utf8Units (b1 :: bs1)
      | [] => [none]
    else if 0xF0 ≤ b && b ≤ 0xF4 then
      match bs with
      | b1 :: bs1 =>
        if (if b = 0xF0 then 0x90 ≤ b1 && b1 ≤ 0xBF
            else if b = 0xF4 then 0x80 ≤ b1 && b1 ≤ 0x8F
            else 0x80 ≤ b1 && b1 < 0xC0) then
          match bs1 with
          | b2 :: bs2 =>
            if 0x80 ≤ b2 && b2 < 0xC0 then
              match bs2 with
              | b3 :: bs3 =>
                if 0x80 ≤ b3 && b3 < 0xC0 then
                  some (Char.ofNat ((b - 0xF0) * 262144 + (b1 - 0x80) * 4096
                        + (b2 - 0x80) * 64 + (b3 - 0x80))) :: utf8Units bs3
                else none :: utf8Units (b3 :: bs3)
              | [] => [none]
            else none :: utf8Units (b2 :: bs2)
          | [] => [none]
        else none :: utf8Units (b1 :: bs1)
      | [] => [none]
    else none :: utf8Units bs

/-- `bytes.decode('utf-8', errors='ignore')`: invalid units are dropped. -/
def decodeUtf8Ignore (bs : Bytes) : Str :=
  (utf8Units bs).filterMap id

/-- `bytes.decode('utf-8', errors='replace')`: invalid units become U+FFFD. -/
def decodeUtf8Replace (bs : Bytes) : Str :=
  (utf8Units bs).map (fun u => u.getD (Char.ofNat 0xFFFD))

/-- Strict `bytes.decode('utf-8')`: `none` models `UnicodeDecodeError`. -/
def decodeUtf8Strict (bs : Bytes) : Option Str :=
  if (utf8Units bs).all Option.isSome then some ((utf8Units bs).filterMap id)
  else none

/-- Core loop of `urllib.parse.unquote`: runs of valid `%XX` escapes are
collected as bytes and decoded together with UTF-8 `errors='replace'`;
invalid escapes and plain characters pass through literally. `acc` holds
the pending byte run. -/
def unquoteGo : Str → Bytes → Str
  | [], acc => decodeUtf8Replace acc
  | '%' :: c1 :: c2 :: rest, acc =>
    match hexVal c1, hexVal c2 with
    | some h1, some h2 => unquoteGo rest (acc ++ [h1 * 16 + h2])
    | _, _ => decodeUtf8Replace acc ++ '%' :: unquoteGo (c1 :: c2 :: rest) []
  | c :: rest, acc => decodeUtf8Replace acc ++ c :: unquoteGo rest []

/-- `urllib.parse.unquote(s)`. -/
def unquote (s : Str) : Str :=
  unquoteGo s []

/-- `urllib.parse.unquote_plus(s)`: `+` becomes a space, then unquote. -/
def unquote_plus (s : Str) : Str :=
  unquote (s.map (fun c => if c = '+' then ' ' else c))

/-- `urllib.parse.parse_qsl(qs)` with default arguments: split on `&`,
skip empty fields, skip fields without `=` (keep_blank_values is False),
skip fields whose value part is empty, and percent-plus-decode both key
and value of the kept pairs. -/
def parse_qsl (qs : Str) : List (Str × Str) :=
  (splitOn '&' qs).foldr (fun field acc =>
    if field = [] then acc
    else match splitFirst '=' field with
      | none => acc
      | some (n, v) =>
        if v = [] then acc else (unquote_plus n, unquote_plus v) :: acc) []

/-- Dict-accumulation step of `urllib.parse.parse_qs`: append the value to
the existing key's list, or append a new singleton entry. -/
def qsAdd (d : List (Str × List Str)) (k : Str) (v : Str) : List (Str × List Str) :=
  match d with
  | [] => [(k, [v])]
  | (k1, vs) :: rest => if k1 = k then (k1, vs ++ [v]) :: rest else (k1, vs) :: qsAdd rest k v

/-- `urllib.parse.parse_qs(qs)` with default arguments. -/
def parse_qs (qs : Str) : List (Str × List Str) :=
  (parse_qsl qs).foldl (fun d kv => qsAdd d kv.1 kv.2) []

/-- A query-map value: single occurrences unwrap to a scalar, repeated
keys keep the ordered list (lines 38-39 of server.py). -/
inductive QueryVal
  | scalar (v : Str)
  | multi (vs : List Str)
deriving DecidableEq

/-- Collapse a `parse_qs` value list per line 39 of server.py. -/
def collapseVals (vs : List Str) : QueryVal :=
  match vs with
  | [v] => QueryVal.scalar v
  | _ => QueryVal.multi vs

/-- The `self.query` dict built in `Request.__init__` (lines 35-39). -/
def queryOf (queryString : Str) : List (Str × QueryVal) :=
  if queryString = [] then []
  else (parse_qs queryString).map (fun kv => (kv.1, collapseVals kv.2))

/-- Valid Python integer-literal digit run: digits with single `_`
separators strictly between digits. -/
def pyDigits : Str → Bool
  | [] => false
  | c :: rest => c.isDigit && pyDigitsRest rest
where
  pyDigitsRest : Str → Bool
    | [] => true
    | '_' :: c :: rest => c.isDigit && pyDigitsRest rest
    | '_' :: [] => false
    | c :: rest => c.isDigit && pyDigitsRest rest

/-- Numeric value of a digit run (underscores skipped). -/
def pyDigitsVal (s : Str) : Nat :=
  (s.filter (fun c => c ≠ '_')).foldl (fun n c => n * 10 + (c.toNat - 48)) 0

/-- Python `int(s)` on a string: strip whitespace, optional sign, decimal
digits (with underscore separators); `none` models `ValueError`. -/
def pyInt (s : Str) : Option Int :=
  let t := stripWs s
  match t with
  | '+' :: rest => if pyDigits rest then some (pyDigitsVal rest : Int) else none
  | '-' :: rest => if pyDigits rest then some (-(pyDigitsVal rest : Int)) else none
  | _ => if pyDigits t then some (pyDigitsVal t : Int) else none

/-- A parsed JSON value tree, as produced by `json.loads`. Numbers keep
their source lexeme: Python converts them to `int`/`float`, whose exact
numeric semantics is outside this embedding; the claims here only depend
on the shape of the tree. -/
inductive Jv
  | jnull
  | jbool (b : Bool)
  | jnum (lex : Str)
  | jstr (s : Str)
  | jarr (xs : List Jv)
  | jobj (ms : List (Str × Jv))

/-- JSON insignificant whitespace. -/
def jsonWs (c : Char) : Bool :=
  c = ' ' || c = '\t' || c = '\n' || c = '\r'

/-- Skip JSON whitespace. -/
def jskip (s : Str) : Str :=
  s.dropWhile jsonWs

/-- Parse the body of a JSON string after the opening quote, handling the
escape sequences of the JSON grammar, rejecting raw control characters
(Python's default strict mode). A `\uXXXX` escape yields its code point;
surrogate pairs combine; a lone surrogate (which Python would keep in the
str) is mapped to U+FFFD since Lean `Char` has no surrogates — no claim
depends on that corner. -/
def jsonStrBody : Str → Option (Str × Str)
  | [] => none
  | '"' :: rest => some ([], rest)
  | '\\' :: esc =>
    match esc with
    | '"' :: rest => (jsonStrBody rest).map (fun pr => ('"' :: pr.1, pr.2))
    | '\\' :: rest => (jsonStrBody rest).map (fun pr => ('\\' :: pr.1, pr.2))
    | '/' :: rest => (jsonStrBody rest).map (fun pr => ('/' :: pr.1, pr.2))
    | 'b' :: rest => (jsonStrBody rest).map (fun pr => (Char.ofNat 8 :: pr.1, pr.2))
    | 'f' :: rest => (jsonStrBody rest).map (fun pr => (Char.ofNat 12 :: pr.1, pr.2))
    | 'n' :: rest => (jsonStrBody rest).map (fun pr => ('\n' :: pr.1, pr.2))
    | 'r' :: rest => (jsonStrBody rest).map (fun pr => ('\r' :: pr.1, pr.2))
    | 't' :: rest => (jsonStrBody rest).map (fun pr => ('\t' :: pr.1, pr.2))
    | 'u' :: h1 :: h2 :: h3 :: h4 :: rest =>
      match hexVal h1, hexVal h2, hexVal h3, hexVal h4 with
      | some a, some b, some c, some d =>
        let n := ((a * 16 + b) * 16 + c) * 16 + d
        if 0xD800 ≤ n && n ≤ 0xDBFF then
          match rest with
          | '\\' :: 'u' :: g1 :: g2 :: g3 :: g4 :: rest2 =>
            match hexVal g1, hexVal g2, hexVal g3, hexVal g4 with
            | some a2, some b2, some c2, some d2 =>
              let m := ((a2 * 16 + b2) * 16 + c2) * 16 + d2
              if 0xDC00 ≤ m && m ≤ 0xDFFF then
                (jsonStrBody rest2).map (fun pr =>
                  (Char.ofNat (0x10000 + (n - 0xD800) * 1024 + (m - 0xDC00)) :: pr.1, pr.2))
              else (jsonStrBody ('\\' :: 'u' :: g1 :: g2 :: g3 :: g4 :: rest2)).map
                     (fun pr => (Char.ofNat 0xFFFD :: pr.1, pr.2))
            | _, _, _, _ => none
          | r => (jsonStrBody r).map (fun pr => (Char.ofNat 0xFFFD :: pr.1, pr.2))
        else if 0xDC00 ≤ n && n ≤ 0xDFFF then
          (jsonStrBody rest).map (fun pr => (Char.ofNat 0xFFFD :: pr.1, pr.2))
        else (jsonStrBody rest).map (fun pr => (Char.ofNat n :: pr.1, pr.2))
      | _, _, _, _ => none
    | _ => none
  | c :: rest =>
    if c.toNat < 0x20 then none
    else (jsonStrBody rest).map (fun pr => (c :: pr.1, pr.2))
termination_by s => s.length
decreasing_by all_goals simp_arith [List.length]

/-- Lex a JSON number per the grammar `-? (0 | [1-9][0-9]*) (\.[0-9]+)?
([eE][+-]?[0-9]+)?`, returning the lexeme. -/
def jsonNum (s : Str) : Option (Str × Str) :=
  let int1 : Str × Str :=
    match s with
    | '-' :: rest => (['-'], rest)
    | _ => ([], s)
  match int1.2 with
  | [] => none
  | c :: rest =>
    if c = '0' then
      let afterInt : Str × Str := (int1.1 ++ ['0'], rest)
      jsonNumTail afterInt
    else if c.isDigit then
      let ds := rest.takeWhile Char.isDigit
      jsonNumTail (int1.1 ++ c :: ds, rest.dropWhile Char.isDigit)
    else none
where
  /-- Optional fraction and exponent after the integer part. -/
  jsonNumTail : Str × Str → Option (Str × Str)
    | (lex, s) =>
      let frac : Option (Str × Str) :=
        match s with
        | '.' :: d :: rest =>
          if d.isDigit then
            some (lex ++ '.' :: d :: rest.takeWhile Char.isDigit, rest.dropWhile Char.isDigit)
          else none
        | _ => some (lex, s)
      match frac with
      | none => none
      | some (lex2, s2) =>
        match s2 with
        | e :: rest =>
          if e = 'e' || e = 'E' then
            let signed : Str × Str :=
              match rest with
              | '+' :: r2 => (['+'], r2)
              | '-' :: r2 => (['-'], r2)
              | _ => ([], rest)
            match signed.2 with
            | d :: r3 =>
              if d.isDigit then
                some (lex2 ++ e :: signed.1 ++ d :: r3.takeWhile Char.isDigit,
                      r3.dropWhile Char.isDigit)
              else none
            | [] => none
          else some (lex2, s2)
        | [] => some (lex2, s2)

mutual

/-- Parse one JSON value at the head of `s` (whitespace already skipped),
with `fuel` bounding recursion depth. Mirrors the grammar accepted by
`json.loads`, including the `NaN`/`Infinity` constants Python accepts by
default. -/
def jsonValue : Nat → Str → Option (Jv × Str)
  | 0, _ => none
  | _ + 1, [] => none
  | fuel + 1, c :: rest =>
    if c = 'n' then
      if hasPfx ("ull".data) rest then some (Jv.jnull, rest.drop 3) else none
    else if c = 't' then
      if hasPfx ("rue".data) rest then some (Jv.jbool true, rest.drop 3) else none
    else if c = 'f' then
      if hasPfx ("alse".data) rest then some (Jv.jbool false, rest.drop 4) else none
    else if c = 'N' then
      if hasPfx ("aN".data) rest then some (Jv.jnum ("NaN".data), rest.drop 2) else none
    else if c = 'I' then
      if hasPfx ("nfinity".data) rest then some (Jv.jnum ("Infinity".data), rest.drop 7)
      else none
    else if c = '-' && hasPfx ("Infinity".data) rest then
      some (Jv.jnum ("-Infinity".data), rest.drop 8)
    else if c = '"' then
      (jsonStrBody rest).map (fun pr => (Jv.jstr pr.1, pr.2))
    else if c = Char.ofNat 91 then
      match jskip rest with
      | d :: rest2 =>
        if d = Char.ofNat 93 then some (Jv.jarr [], rest2)
        else jsonArrItems fuel (jskip rest) []
      | [] => none
    else if c = Char.ofNat 123 then
      match jskip rest with
      | d :: rest2 =>
        if d = Char.ofNat 125 then some (Jv.jobj [], rest2)
        else jsonObjItems fuel (jskip rest) []
      | [] => none
    else
      (jsonNum (c :: rest)).map (fun pr => (Jv.jnum pr.1, pr.2))

/-- Parse the comma-separated items of a non-empty JSON array, up to and
including the closing bracket. -/
def jsonArrItems : Nat → Str → List Jv → Option (Jv × Str)
  | 0, _, _ => none
  | fuel + 1, s, acc =>
    match jsonValue fuel (jskip s) with
    | none => none
    | some (v, rest) =>
      match jskip rest with
      | ',' :: rest2 => jsonArrItems fuel rest2 (acc ++ [v])
      | d :: rest2 =>
        if d = Char.ofNat 93 then some (Jv.jarr (acc ++ [v]), rest2) else none
      | [] => none

/-- Parse the comma-separated members of a non-empty JSON object, up to
and including the closing brace. -/
def jsonObjItems : Nat → Str → List (Str × Jv) → Option (Jv × Str)
  | 0, _, _ => none
  | fuel + 1, s, acc =>
    match jskip s with
    | '"' :: rest =>
      match jsonStrBody rest with
      | none => none
      | some (key, rest2) =>
        match jskip rest2 with
        | ':' :: rest3 =>
          match jsonValue fuel (jskip rest3) with
          | none => none
          | some (v, rest4) =>
            match jskip rest4 with
            | ',' :: rest5 => jsonObjItems fuel rest5 (acc ++ [(key, v)])
            | d :: rest5 =>
              if d = Char.ofNat 125 then some (Jv.jobj (acc ++ [(key, v)]), rest5) else none
            | [] => none
        | _ => none
    | _ => none

end

/-- `json.loads(body)` on a bytes object: strict UTF-8 decode (a decode
failure is just a parse failure from the caller's bare `except`), then
parse exactly one JSON document. `none` models any raised exception. -/
def jsonLoads (bs : Bytes) : Option Jv :=
  match decodeUtf8Strict bs with
  | none => none
  | some s =>
    match jsonValue (2 * s.length + 4) (jskip s) with
    | none => none
    | some (v, rest) => if jskip rest = [] then some v else none

/-- The decoded `Request.body` value (lines 46-65 of server.py):
the absence marker for an empty body, a JSON tree or the ignore-decoded
text fallback for JSON content types, a `parse_qs` map for form content
types, and the raw bytes otherwise. -/
inductive BodyVal
  | absent
  | jsonV (v : Jv)
  | textV (s : Str)
  | formV (d : List (Str × List Str))
  | rawV (b : Bytes)

/-- Body decoding by declared content type (lines 48-65). -/
def decodeBody (ct : Str) (body : Bytes) : BodyVal :=
  if strContains ct ("application/json".data) then
    match jsonLoads body with
    | some v => BodyVal.jsonV v
    | none => BodyVal.textV (decodeUtf8Ignore body)
  else if strContains ct ("application/x-www-form-urlencoded".data) then
    BodyVal.formV (parse_qs (decodeUtf8Ignore body))
  else BodyVal.rawV body

/-- The full body rule of `Request.__init__` (lines 46-65): `None` for an
empty body, otherwise dispatch on the `Content-Type` header (exact-case
lookup, empty default). -/
def requestBody (headers : List (Str × Str)) (body : Bytes) : BodyVal :=
  if body = [] then BodyVal.absent
  else decodeBody (dictGetD headers ("Content-Type".data) []) body

/-- The request object (lines 21-65). -/
structure Request where
  method : Str
  raw_path : Str
  path : Str
  query : List (Str × QueryVal)
  headers : List (Str × Str)
  params : List (Str × Str)
  body : BodyVal

/-- `Request.__init__`: split the raw path at the first `?`, parse the
query string, decode the body; `params` starts empty. -/
def buildRequest (method raw_path : Str) (headers : List (Str × Str))
    (body : Bytes) : Request :=
  let split := splitFirst '?' raw_path
  let path_only := match split with | some pr => pr.1 | none => raw_path
  let query_string := match split with | some pr => pr.2 | none => []
  { method := method, raw_path := raw_path, path := path_only,
    query := queryOf query_string, headers := headers, params := [],
    body := requestBody headers body }

/-- One segment of a compiled route template: a literal (the code passes
it through `re.escape`, so it matches verbatim) or a named placeholder
(compiled to `(?P<name>[^/]+)`, one non-empty slash-free segment). -/
inductive Seg
  | lit (s : Str)
  | capture (name : Str)

/-- A compiled route matcher (`add_route`, lines 178-193): the root path
is special-cased to `^/$`; otherwise segments each preceded by `/`, with
`/?$` at the end. -/
inductive RoutePat
  | root
  | segs (xs : List Seg)

/-- Template compilation in `add_route`: strip surrounding slashes, split
on `/`, classify each part. -/
def compileRoute (path : Str) : RoutePat :=
  if path = "/".data then RoutePat.root
  else RoutePat.segs ((splitOn '/' (stripChar '/' path)).map (fun part =>
    match part with
    | ':' :: name => Seg.capture name
    | _ => Seg.lit part))

/-- Matching of a compiled segment list against a path, returning the
named captures in order (`match.groupdict()`). Faithful to the generated
regex `^(/seg)+/?$`: since `[^/]+` cannot cross a `/` and every later
pattern element starts with `/` (or is `/?$`), the greedy capture never
needs backtracking, so this direct recursion computes exactly the regex
match. -/
def matchSegs : List Seg → Str → Option (List (Str × Str))
  | [], cs => if cs = [] ∨ cs = ['/'] then some [] else none
  | Seg.lit l :: rest, cs =>
    match cs with
    | [] => none
    | c :: cs1 =>
      if c = '/' then
        (if hasPfx l cs1 then matchSegs rest (cs1.drop l.length) else none)
      else none
  | Seg.capture n :: rest, cs =>
    match cs with
    | [] => none
    | c :: cs1 =>
      if c = '/' then
        (let v := cs1.takeWhile (fun ch => decide (ch ≠ '/'))
         if v = [] then none
         else
           match matchSegs rest (cs1.dropWhile (fun ch => decide (ch ≠ '/'))) with
           | some ps => some ((n, v) :: ps)
           | none => none)
      else none

/-- `regex.match(path)` of a compiled route (plus `groupdict`). -/
def patMatch : RoutePat → Str → Option (List (Str × Str))
  | RoutePat.root, cs => if cs = "/".data then some [] else none
  | RoutePat.segs xs, cs => matchSegs xs cs

/-- A route handler: given the request (with params bound) and the
response object, it returns the mutated response and `some e` when it
raised an exception part-way. -/
def Handler : Type :=
  Request → Response → Response × Option Unit

/-- A registration triple as issued by the app: method, path template,
handler. -/
def Registration : Type :=
  Str × Str × Handler

/-- The MiniExpress application state: the per-method route dict and the
static mappings, both in registration order (lines 171-174). -/
structure MiniExpress where
  routes : List (Str × List (RoutePat × Handler))
  static_routes : List (Str × Str)

/-- An app with nothing registered. -/
def emptyApp : MiniExpress :=
  { routes := [], static_routes := [] }

/-- `self.routes.setdefault(method, []).append(entry)`. -/
def routesAppend (rs : List (Str × List (RoutePat × Handler))) (m : Str)
    (e : RoutePat × Handler) : List (Str × List (RoutePat × Handler)) :=
  match rs with
  | [] => [(m, [e])]
  | (m1, l) :: rest =>
    if m1 = m then (m1, l ++ [e]) :: rest else (m1, l) :: routesAppend rest m e

/-- `self.routes.get(method, [])`. -/
def routesGet (rs : List (Str × List (RoutePat × Handler))) (m : Str) :
    List (RoutePat × Handler) :=
  match rs with
  | [] => []
  | (m1, l) :: rest => if m1 = m then l else routesGet rest m

/-- `MiniExpress.add_route` (lines 178-194). -/
def add_route (app : MiniExpress) (m path : Str) (h : Handler) : MiniExpress :=
  { app with routes := routesAppend app.routes m (compileRoute path, h) }

/-- `MiniExpress.use_static` (lines 228-232): ensure a leading slash,
strip trailing slashes, append. -/
def use_static (app : MiniExpress) (pfx dir : Str) : MiniExpress :=
  let p1 := if hasPfx ("/".data) pfx then pfx else '/' :: pfx
  { app with static_routes := app.static_routes ++ [(rstripChar '/' p1, dir)] }

/-- Build an app from a registration sequence (what the demo app does at
module load time, in order). -/
def buildApp (regs : List Registration) : MiniExpress :=
  regs.foldl (fun a r => add_route a r.1 r.2.1 r.2.2) emptyApp

/-- The route-scanning loop of `handle_request` (lines 326-328): first
compiled matcher that matches the path wins. -/
def findRoute : List (RoutePat × Handler) → Str → Option ((RoutePat × Handler) × List (Str × Str))
  | [], _ => none
  | e :: rest, p =>
    match patMatch e.1 p with
    | some ps => some (e, ps)
    | none => findRoute rest p

/-- Declarative route resolution as §4.3 of the spec words it: scan the
registration sequence in order, keep only entries for this method, and
take the first whose template matches the path. Used only to compare the
code's dict-of-lists scan against the spec. -/
def specFirstRoute : List Registration → Str → Str → Option ((RoutePat × Handler) × List (Str × Str))
  | [], _, _ => none
  | (m1, path, h) :: rest, m, p =>
    if m1 = m then
      match patMatch (compileRoute path) p with
      | some ps => some ((compileRoute path, h), ps)
      | none => specFirstRoute rest m p
    else specFirstRoute rest m p

/-- The try/except of lines 330-334: the handler's resulting response
when it returned, or `res.status(500).send("Internal Server Error")` when
it raised. -/
def handlerResult (out : Response × Option Unit) : Response :=
  match out.2 with
  | none => out.1
  | some _ => Response.send (Response.status out.1 500)
                (SendData.sStr ("Internal Server Error".data))

/-- The `finally` block of lines 335-337: force `res.send(None)` when
nothing was sent. -/
def forceSend (r2 : Response) : Response :=
  if r2.sent then r2 else Response.send r2 SendData.sNone

/-- Handler invocation with failure containment (lines 329-337): bind the
params, call the handler, convert an exception to a 500, force a send. -/
def invokeRoute (h : Handler) (req : Request) (res : Response)
    (ps : List (Str × Str)) : Response :=
  forceSend (handlerResult (h { req with params := ps } res))

/-- Result of opening and reading a file path: contents, a
`FileNotFoundError`, or any other `OSError` with its message. -/
inductive FileRes
  | content (b : Bytes)
  | absent
  | failure (msg : Str)

/-- The filesystem and MIME table the static layer consults. -/
structure FS where
  isDir : Str → Bool
  readF : Str → FileRes
  mime : Str → Option Str

/-- `os.path.join(a, b)` for a non-absolute `b` (the code strips leading
slashes from `b` first, so the absolute-`b` branch of `join` is
unreachable). -/
def joinPath (a b : Str) : Str :=
  if a = [] then b
  else if a.getLast? = some '/' then a ++ b
  else a ++ '/' :: b

/-- The static file path computed at lines 297-298:
`os.path.join(directory, req.path[len(prefix):].lstrip('/'))`. -/
def staticFilePath (dir pfx p : Str) : Str :=
  joinPath dir (lstripChar '/' (p.drop pfx.length))

/-- The path actually opened (lines 298-302): append `index.html` when
the joined path is a directory. -/
def staticTarget (fs : FS) (dir pfx p : Str) : Str :=
  let fp := staticFilePath dir pfx p
  if fs.isDir fp then joinPath fp ("index.html".data) else fp

/-- Serving one matched static mapping (lines 297-315): read the target;
on success set the guessed content type and send the bytes; on
`FileNotFoundError` fall through (`none`); on any other error send a 500
whose body embeds the error message. -/
def serveStatic (fs : FS) (pfx dir : Str) (req : Request) (res : Response) :
    Option Response :=
  let tgt := staticTarget fs dir pfx req.path
  match fs.readF tgt with
  | FileRes.content b =>
    let ct := (fs.mime tgt).getD ("application/octet-stream".data)
    some (Response.send { res with headers := dictSet res.headers ("Content-Type".data) ct }
            (SendData.sBytes b))
  | FileRes.absent => none
  | FileRes.failure msg =>
    some (Response.send (Response.status res 500)
            (SendData.sStr ("Error reading static file: ".data ++ msg)))

/-- The static loop of `handle_request` (lines 294-316): scan mappings in
registration order; the first whose URL prefix starts the path is handled
and the loop `break`s, whatever the outcome; `some` means served (the
dispatcher returns), `none` means fall through to dynamic routing. -/
def staticStage (fs : FS) : List (Str × Str) → Request → Response → Option Response
  | [], _, _ => none
  | (pfx, dir) :: rest, req, res =>
    if hasPfx pfx req.path then serveStatic fs pfx dir req res
    else staticStage fs rest req res

/-- Dynamic routing (lines 325-342): scan this method's route list; on a
match bind params and invoke; otherwise `res.status(404).send("Not
Found")`. -/
def routeStage (app : MiniExpress) (req : Request) (res : Response) : Response :=
  match findRoute (routesGet app.routes req.method) req.path with
  | some (e, ps) => invokeRoute e.2 req res ps
  | none => Response.send (Response.status res 404) (SendData.sStr ("Not Found".data))

/-- Static short-circuit then dynamic routing (lines 294-342). -/
def staticOrRoute (fs : FS) (app : MiniExpress) (req : Request) (res : Response) : Response :=
  match staticStage fs app.static_routes req res with
  | some r => r
  | none => routeStage app req res

/-- The fixed CORS-preflight answer for OPTIONS (lines 282-289). -/
def optionsResponse (res : Response) : Response :=
  let r1 := Response.status res 200
  let hs1 := dictSet r1.headers ("Access-Control-Allow-Origin".data) ("*".data)
  let hs2 := dictSet hs1 ("Access-Control-Allow-Methods".data)
               ("GET,POST,PUT,DELETE,OPTIONS".data)
  let hs3 := dictSet hs2 ("Access-Control-Allow-Headers".data) ("Content-Type".data)
  Response.send { r1 with headers := hs3 } (SendData.sStr [])

/-- The exceptions `handle_request` can let escape. -/
inductive PyErr
  | unicodeDecodeError
  | valueError
deriving DecidableEq

/-- `rfile.readline()` on a byte stream: up to and including the first
LF, or everything when no LF remains (empty at EOF). -/
def readLine : Bytes → Bytes × Bytes
  | [] => ([], [])
  | b :: bs =>
    if b = 10 then ([10], bs)
    else
      let pr := readLine bs
      (b :: pr.1, pr.2)

/-- The header-reading loop (lines 260-267): read a line, decode it
strictly (an invalid byte raises `UnicodeDecodeError` — this readline is
not inside any try), stop on EOF or a blank line, record `name: value`
pairs with both sides stripped, drop lines without a colon. `fuel` bounds
the loop; each iteration consumes at least one byte, so `bs.length + 1`
always suffices. -/
def readHeadersGo : Nat → Bytes → List (Str × Str) → Except PyErr (List (Str × Str) × Bytes)
  | 0, bs, acc => Except.ok (acc, bs)
  | fuel + 1, bs, acc =>
    let pr := readLine bs
    match decodeUtf8Strict pr.1 with
    | none => Except.error PyErr.unicodeDecodeError
    | some hline =>
      if hline = [] ∨ hline = "\r\n".data ∨ hline = "\n".data then Except.ok (acc, pr.2)
      else if ':' ∈ hline then
        match splitFirst ':' hline with
        | some (n, v) => readHeadersGo fuel pr.2 (dictSet acc (stripWs n) (stripWs v))
        | none => readHeadersGo fuel pr.2 acc
      else readHeadersGo fuel pr.2 acc

/-- The header phase of `handle_request` starting after the request
line. -/
def headersPhase (bs : Bytes) : Except PyErr (List (Str × Str) × Bytes) :=
  readHeadersGo (bs.length + 1) bs []

/-- Request-line phase (lines 242-257): read and strictly decode the
first line (failures close silently: `none`), reject an empty read, strip
and whitespace-split, require exactly three parts; yields method, raw
path and the remaining stream. -/
def parseReqLine (input : Bytes) : Option (Str × Str × Bytes) :=
  let pr := readLine input
  match decodeUtf8Strict pr.1 with
  | none => none
  | some line =>
    if line = [] then none
    else
      match splitWs (stripWs line) with
      | [m, rp, _v] => some (m, rp, pr.2)
      | _ => none

/-- `rfile.read(length)` for a Python int argument: a negative length
reads to EOF. -/
def pyRead (bs : Bytes) (n : Int) : Bytes :=
  if n < 0 then bs else bs.take n.toNat

/-- The body phase (lines 270-273): when a `Content-Length` header is
present its value goes through `int(...)` with no handler — a non-integer
value raises `ValueError` out of the dispatcher. -/
def bodyPhase (hs : List (Str × Str)) (bs : Bytes) : Except PyErr Bytes :=
  if dictMem hs ("Content-Length".data) then
    match pyInt (dictGetD hs ("Content-Length".data) []) with
    | none => Except.error PyErr.valueError
    | some n => Except.ok (pyRead bs n)
  else Except.ok []

/-- Request/response core after parsing (lines 276-342): build the
request, make a fresh response, answer OPTIONS with the fixed preflight,
otherwise static then dynamic dispatch. -/
def dispatchCore (app : MiniExpress) (fs : FS) (brk : Option Nat)
    (m rp : Str) (hs : List (Str × Str)) (body : Bytes) : Response :=
  let req := buildRequest m rp hs body
  let res := freshResponse brk
  if m = "OPTIONS".data then optionsResponse res
  else staticOrRoute fs app req res

/-- `MiniExpress.handle_request` (lines 238-343) over a connection's
byte stream. `Except.ok r` means the dispatcher ran to completion and
closed the socket, `r.wire` holding everything written; a silent abort on
a malformed preamble yields the untouched fresh response. `Except.error`
models an exception escaping `handle_request` (killing its thread): no
response was written and the socket is left unclosed. -/
def handle_request (app : MiniExpress) (fs : FS) (brk : Option Nat)
    (input : Bytes) : Except PyErr Response :=
  match parseReqLine input with
  | none => Except.ok (freshResponse brk)
  | some (m, rp, rest1) =>
    match headersPhase rest1 with
    | Except.error e => Except.error e
    | Except.ok (hs, rest2) =>
      match bodyPhase hs rest2 with
      | Except.error e => Except.error e
      | Except.ok body => Except.ok (dispatchCore app fs brk m rp hs body)

/-- Response mutations reachable through the public Response API — what a
handler can do to the response object it is given (status, set_header or
direct header assignment, send, json). -/
inductive Reaches : Response → Response → Prop
  | refl (r : Response) : Reaches r r
  | status (r r' : Response) (c : Nat) : Reaches r r' → Reaches r (Response.status r' c)
  | header (r r' : Response) (k v : Str) :
      Reaches r r' → Reaches r (Response.set_header r' k v)
  | send (r r' : Response) (d : SendData) : Reaches r r' → Reaches r (Response.send r' d)
  | json (r r' : Response) (s : Str) : Reaches r r' → Reaches r (Response.json r' s)

/-- Segments of a POSIX path. -/
def pathSegs (p : Str) : List Str :=
  splitOn '/' p

/-- `os.path.normpath` for POSIX paths without a drive: drop empty and
`.` segments, resolve `..` against the stack (keeping leading `..` for
relative paths, dropping it at the root for absolute ones), `.` for an
empty relative result. -/
def normSegsGo : List Str → Bool → List Str → List Str
  | [], _, acc => acc.reverse
  | s :: rest, isAbs, acc =>
    if s = [] ∨ s = ['.'] then normSegsGo rest isAbs acc
    else if s = "..".data then
      match acc with
      | [] => if isAbs then normSegsGo rest isAbs [] else normSegsGo rest isAbs [s]
      | t :: acc1 =>
        if t = "..".data then normSegsGo rest isAbs (s :: t :: acc1)
        else normSegsGo rest isAbs acc1
    else normSegsGo rest isAbs (s :: acc)

/-- Join segments with `/`. -/
def joinSegs : List Str → Str
  | [] => []
  | [s] => s
  | s :: rest => s ++ '/' :: joinSegs rest

/-- `os.path.normpath(p)` (POSIX). -/
def normPath (p : Str) : Str :=
  let isAbs := hasPfx ("/".data) p
  let segs := normSegsGo (pathSegs p) isAbs []
  if isAbs then '/' :: joinSegs segs
  else if segs = [] then ['.']
  else joinSegs segs

/-- Is the normalized form of `q` inside directory `dir`? -/
def insideDir (dir q : Str) : Bool :=
  normPath q = normPath dir || hasPfx (normPath dir ++ ['/']) (normPath q)

/-- Lookup in a `parse_qs`-shaped dict (string keys, list values). -/
def qdictGet? (d : List (Str × List Str)) (k : Str) : Option (List Str) :=
  match d with
  | [] => none
  | (k1, vs) :: rest => if k1 = k then some vs else qdictGet? rest k

/-- Lookup in the final query map. -/
def queryGet? (d : List (Str × QueryVal)) (k : Str) : Option QueryVal :=
  match d with
  | [] => none
  | (k1, v) :: rest => if k1 = k then some v else queryGet? rest k

/-- All values of key `k` among a pair list, in order. -/
def valsOf (l : List (Str × Str)) (k : Str) : List Str :=
  (l.filter (fun kv => decide (kv.1 = k))).map Prod.snd

/-- How many fields of the raw query string carry key `k` (the part
before the first `=`, or the whole field), counting blank-valued
occurrences too — the notion of "key occurrence" used by the claim. -/
def countKeyOccurrences (qs k : Str) : Nat :=
  ((splitOn '&' qs).filter (fun f =>
    decide ((match splitFirst '=' f with | some pr => pr.1 | none => f) = k))).length

/-- Filesystem fixture where nothing exists. -/
def fsEmpty : FS :=
  { isDir := fun _ => false, readF := fun _ => FileRes.absent, mime := fun _ => none }

/-- Request fixture for concrete evaluations. -/
def reqFix : Request :=
  buildRequest ("GET".data) ("/x".data) [] []

/-- Handler fixture that only sets a status and returns without sending. -/
def statusOnlyHandler : Handler :=
  fun _ r => (Response.status r 201, none)

/-- Handler fixture that sends a 200 body and then raises. -/
def sendThenRaiseHandler : Handler :=
  fun _ r => (Response.send r (SendData.sStr ("ok".data)), some ())

/-- Response fixture with a stale `Connection` header, to exercise the
unconditional overwrite in `send`. -/
def respFix : Response :=
  { status_code := 200, status_text := "OK".data,
    headers := [(("Connection".data), ("keep-alive".data))],
    sent := false, wire := [], breakAfter := none }

/-- Does the byte pattern occur at the start? -/
def bytesHasPfx : Bytes → Bytes → Bool
  | [], _ => true
  | _ :: _, [] => false
  | c :: p, d :: s => c = d && bytesHasPfx p s

/-- Does the byte pattern occur contiguously inside the byte list? -/
def bytesContains : Bytes → Bytes → Bool
  | hay, needle =>
    match hay with
    | [] => needle = []
    | _ :: rest => bytesHasPfx needle hay || bytesContains rest needle

/-- Request fixture aimed under a static prefix. -/
def reqStatic : Request :=
  buildRequest ("GET".data) ("/static/app.css".data) [] []

/-- App fixture with one static mapping and no routes. -/
def appStatic : MiniExpress :=
  { routes := [], static_routes := [(("/static".data), ("./pub1".data))] }

/-- Connection input whose Content-Length is not an integer (`12x`). -/
def inputBadCL : Bytes :=
  utf8 ("GET / HTTP/1.1\r\nContent-Length: 12x\r\n\r\n".data)

/-- Connection input whose Content-Length is not an integer (`abc`). -/
def inputAbcCL : Bytes :=
  utf8 ("GET / HTTP/1.1\r\nContent-Length: abc\r\n\r\n".data)

/-! ### Association-list and send lemmas -/

theorem dictGet?_set_same (d : List (Str × Str)) (k v : Str) :
    dictGet? (dictSet d k v) k = some v := by
  induction d with
  | nil => simp [dictSet, dictGet?]
  | cons kv rest ih =>
    obtain ⟨k1, v1⟩ := kv
    by_cases h : k1 = k
    · simp [dictSet, dictGet?, h]
    · simp [dictSet, dictGet?, h, ih]

theorem dictGet?_set_other (d : List (Str × Str)) (k v k' : Str) (h : k' ≠ k) :
    dictGet? (dictSet d k v) k' = dictGet? d k' := by
  have hne : ¬(k = k') := fun hh => h hh.symm
  induction d with
  | nil => simp [dictSet, dictGet?, hne]
  | cons kv rest ih =>
    obtain ⟨k1, v1⟩ := kv
    by_cases hk : k1 = k
    · rw [hk]
      simp [dictSet, dictGet?, hne]
    · simp [dictSet, dictGet?, hk, ih]

theorem Response.send_of_sent (r : Response) (d : SendData) (h : r.sent = true) :
    Response.send r d = r := by
  simp [Response.send, h]

theorem Response.send_emits (r : Response) (d : SendData) (h : r.sent = false)
    (hb : r.breakAfter = none) :
    Response.send r d =
      { r with headers := finalHeaders r.headers (bodyBytes d).length,
               sent := true,
               wire := r.wire ++ rendered r.status_code r.status_text
                         (finalHeaders r.headers (bodyBytes d).length) (bodyBytes d) } := by
  simp [Response.send, h, hb, rendered]

theorem Response.send_sent (r : Response) (d : SendData) :
    (Response.send r d).sent = true := by
  cases h : r.sent with
  | true => rw [Response.send_of_sent r d h]; exact h
  | false => simp [Response.send, h]

/-! ### C2 -/

/-- C2: on every response actually written (a send on a not-yet-finalized
response over an intact socket), the final header dict — which is exactly
what gets serialized onto the wire, as the last conjunct states — maps
`Connection` to `close` and `Content-Length` to the exact byte length of
the normalized body, whatever headers (including stale `Connection` or
`Content-Length` values) were set before. -/
theorem claim2_send_framing (r : Response) (d : SendData)
    (hns : r.sent = false) (hbk : r.breakAfter = none) :
    dictGet? (Response.send r d).headers ("Connection".data) = some ("close".data)
    ∧ dictGet? (Response.send r d).headers ("Content-Length".data)
        = some (natStr (bodyBytes d).length)
    ∧ (Response.send r d).headers = finalHeaders r.headers (bodyBytes d).length
    ∧ (Response.send r d).wire
        = r.wire ++ rendered r.status_code r.status_text
            (finalHeaders r.headers (bodyBytes d).length) (bodyBytes d) := by
  rw [Response.send_emits r d hns hbk]
  refine ⟨?_, ?_, rfl, rfl⟩
  · show dictGet? (finalHeaders r.headers (bodyBytes d).length) ("Connection".data)
      = some ("close".data)
    unfold finalHeaders
    rw [dictGet?_set_other _ _ _ _ (by decide), dictGet?_set_same]
  · show dictGet? (finalHeaders r.headers (bodyBytes d).length) ("Content-Length".data)
      = some (natStr (bodyBytes d).length)
    unfold finalHeaders
    rw [dictGet?_set_same]

/-- C2 witness: a concrete send on a response carrying a stale
`Connection: keep-alive` header, with a body whose byte length (6)
differs from its character length (5). -/
theorem claim2_send_framing_witness :
    respFix.sent = false ∧ respFix.breakAfter = none
    ∧ dictGet? (Response.send respFix (SendData.sStr ("héllo".data))).headers
        ("Connection".data) = some ("close".data)
    ∧ dictGet? (Response.send respFix (SendData.sStr ("héllo".data))).headers
        ("Content-Length".data) = some (natStr (bodyBytes (SendData.sStr ("héllo".data))).length)
    ∧ natStr (bodyBytes (SendData.sStr ("héllo".data))).length = "6".data :=
  ⟨rfl, rfl, (claim2_send_framing respFix (SendData.sStr ("héllo".data)) rfl rfl).1,
   (claim2_send_framing respFix (SendData.sStr ("héllo".data)) rfl rfl).2.1, by decide⟩

/-! ### C3 -/

/-- C3 (amended): finalization is idempotent for emission — after any
send the `sent` flag is true (whatever the socket did, including a broken
pipe part-way: `r.breakAfter` is arbitrary here), a second `send` is a
complete no-op, and a second `json` emits no bytes — but a later `json`
still overwrites the `Content-Type` header before its inner send
returns early, so it is not a complete state no-op. -/
theorem claim3_finalize_idempotent (r : Response) (d d' : SendData) (s : Str) :
    (Response.send r d).sent = true
    ∧ Response.send (Response.send r d) d' = Response.send r d
    ∧ Response.json (Response.send r d) s
        = { Response.send r d with
              headers := dictSet (Response.send r d).headers ("Content-Type".data)
                           ("application/json; charset=utf-8".data) }
    ∧ (Response.json (Response.send r d) s).wire = (Response.send r d).wire := by
  have hsent : (Response.send r d).sent = true := Response.send_sent r d
  have hjson : Response.json (Response.send r d) s
      = { Response.send r d with
            headers := dictSet (Response.send r d).headers ("Content-Type".data)
                         ("application/json; charset=utf-8".data) } := by
    unfold Response.json
    exact Response.send_of_sent _ _ hsent
  refine ⟨hsent, Response.send_of_sent _ d' hsent, hjson, ?_⟩
  rw [hjson]

/-- C3 counterexample: the claim says every later invocation of send or
json is a no-op, but calling `json` on an already-sent response still
mutates the header dict (the `Content-Type` assignment precedes the
`sent` check), even though no bytes are emitted. -/
theorem claim3_counterexample :
    (Response.send (freshResponse none) (SendData.sStr ("hi".data))).sent = true
    ∧ (Response.json (Response.send (freshResponse none) (SendData.sStr ("hi".data)))
         ("[]".data)).headers
        ≠ (Response.send (freshResponse none) (SendData.sStr ("hi".data))).headers
    ∧ (Response.json (Response.send (freshResponse none) (SendData.sStr ("hi".data)))
         ("[]".data)).wire
        = (Response.send (freshResponse none) (SendData.sStr ("hi".data))).wire := by
  refine ⟨by decide, by decide, by decide⟩

/-! ### C1 -/

theorem reaches_inv (r0 r1 : Response) (hr : Reaches r0 r1)
    (h1 : r0.sent = false) (h2 : r0.wire = []) (h3 : r0.breakAfter = none) :
    r1.breakAfter = none
    ∧ ((r1.sent = false ∧ r1.wire = [])
       ∨ (r1.sent = true ∧ ∃ c t hs b, r1.wire = rendered c t hs b)) := by
  induction hr with
  | refl => exact ⟨h3, Or.inl ⟨h1, h2⟩⟩
  | status r' c _ ih =>
    obtain ⟨hb, hca⟩ := ih
    exact ⟨hb, by
      cases hca with
      | inl hc => exact Or.inl ⟨hc.1, hc.2⟩
      | inr hc => exact Or.inr ⟨hc.1, hc.2⟩⟩
  | header r' k v _ ih =>
    obtain ⟨hb, hca⟩ := ih
    exact ⟨hb, by
      cases hca with
      | inl hc => exact Or.inl ⟨hc.1, hc.2⟩
      | inr hc => exact Or.inr ⟨hc.1, hc.2⟩⟩
  | send r' d _ ih =>
    obtain ⟨hb, hca⟩ := ih
    cases hca with
    | inl hc =>
      rw [Response.send_emits r' d hc.1 hb]
      exact ⟨hb, Or.inr ⟨rfl, r'.status_code, r'.status_text,
        finalHeaders r'.headers (bodyBytes d).length, bodyBytes d, by rw [hc.2]; rfl⟩⟩
    | inr hc =>
      rw [Response.send_of_sent r' d hc.1]
      exact ⟨hb, Or.inr hc⟩
  | json r' s _ ih =>
    obtain ⟨hb, hca⟩ := ih
    unfold Response.json
    cases hca with
    | inl hc =>
      rw [Response.send_emits ({ r' with headers := dictSet r'.headers ("Content-Type".data) ("application/json; charset=utf-8".data) }) (SendData.sStr s) hc.1 hb]
      refine ⟨hb, Or.inr ⟨rfl, r'.status_code, r'.status_text,
        finalHeaders (dictSet r'.headers ("Content-Type".data) ("application/json; charset=utf-8".data)) (bodyBytes (SendData.sStr s)).length,
        bodyBytes (SendData.sStr s), ?_⟩⟩
      show r'.wire ++ _ = _
      rw [hc.2]
      rfl
    | inr hc =>
      rw [Response.send_of_sent ({ r' with headers := dictSet r'.headers ("Content-Type".data) ("application/json; charset=utf-8".data) }) (SendData.sStr s) hc.1]
      exact ⟨hb, Or.inr ⟨hc.1, hc.2⟩⟩

/-- C1 (amended): for a fresh response and a handler whose effect on the
response goes through the public API (`Reaches`), `invokeRoute` — the
try/except/finally of lines 329-337 — always finalizes (`sent = true`)
and writes exactly one serialized response to the wire. Which one:
whatever the handler already sent, if it sent (even if it raised
afterwards — the 500 conversion is then a no-op, which is where the
original claim fails); a `500 Internal Server Error` response when the
handler raised before sending; an empty-body response with the handler's
chosen status when it returned without sending. -/
theorem claim1_handler_containment (h : Handler) (req : Request) (r0 : Response)
    (ps : List (Str × Str))
    (hf1 : r0.sent = false) (hf2 : r0.wire = []) (hf3 : r0.breakAfter = none)
    (hapi : Reaches r0 (h { req with params := ps } r0).1) :
    (invokeRoute h req r0 ps).sent = true
    ∧ (∃ c t hs b, (invokeRoute h req r0 ps).wire = rendered c t hs b)
    ∧ ((h { req with params := ps } r0).1.sent = true →
        (invokeRoute h req r0 ps).wire = (h { req with params := ps } r0).1.wire)
    ∧ ((h { req with params := ps } r0).1.sent = false →
        (h { req with params := ps } r0).2 ≠ none →
        ∃ hs, (invokeRoute h req r0 ps).wire
          = rendered 500 ("Internal Server Error".data) hs
              (utf8 ("Internal Server Error".data)))
    ∧ ((h { req with params := ps } r0).1.sent = false →
        (h { req with params := ps } r0).2 = none →
        ∃ hs, (invokeRoute h req r0 ps).wire
          = rendered (h { req with params := ps } r0).1.status_code
              (h { req with params := ps } r0).1.status_text hs []) := by
  simp only [invokeRoute]
  generalize hout : h { req with params := ps } r0 = o at hapi ⊢
  obtain ⟨r1, exn⟩ := o
  obtain ⟨hb, hca⟩ := reaches_inv r0 r1 hapi hf1 hf2 hf3
  cases exn with
  | none =>
    simp only [handlerResult]
    cases hca with
    | inl hc =>
      obtain ⟨hs1, hw1⟩ := hc
      have hemit := Response.send_emits r1 SendData.sNone hs1 hb
      have hfs : forceSend r1 = Response.send r1 SendData.sNone := by
        simp [forceSend, hs1]
      rw [hfs, hemit]
      refine ⟨rfl, ⟨r1.status_code, r1.status_text, _, _, by rw [hw1]; rfl⟩, ?_, ?_, ?_⟩
      · intro hcontra; rw [hcontra] at hs1; exact absurd hs1 (by simp)
      · intro _ hcontra; exact absurd rfl hcontra
      · intro _ _
        exact ⟨finalHeaders r1.headers (bodyBytes SendData.sNone).length, by rw [hw1]; rfl⟩
    | inr hc =>
      obtain ⟨hs1, blob⟩ := hc
      have hfs : forceSend r1 = r1 := by simp [forceSend, hs1]
      rw [hfs]
      refine ⟨hs1, blob, fun _ => rfl, ?_, ?_⟩
      · intro hcontra _; rw [hcontra] at hs1; exact absurd hs1 (by simp)
      · intro hcontra _; rw [hcontra] at hs1; exact absurd hs1 (by simp)
  | some u =>
    simp only [handlerResult]
    cases hca with
    | inl hc =>
      obtain ⟨hs1, hw1⟩ := hc
      have hst : (Response.status r1 500).sent = false := hs1
      have hstb : (Response.status r1 500).breakAfter = none := hb
      have hemit := Response.send_emits (Response.status r1 500)
        (SendData.sStr ("Internal Server Error".data)) hst hstb
      have hsent2 := Response.send_sent (Response.status r1 500)
        (SendData.sStr ("Internal Server Error".data))
      have hfs : forceSend (Response.send (Response.status r1 500)
          (SendData.sStr ("Internal Server Error".data)))
          = Response.send (Response.status r1 500)
              (SendData.sStr ("Internal Server Error".data)) := by
        simp [forceSend, hsent2]
      rw [hfs, hemit]
      have htext : statusTextOf 500 = "Internal Server Error".data := by decide
      have hwst : (Response.status r1 500).wire = r1.wire := rfl
      refine ⟨rfl, ⟨500, statusTextOf 500, _, _, by
          show (Response.status r1 500).wire ++ _ = _
          rw [hwst, hw1]; rfl⟩, ?_, ?_, ?_⟩
      · intro hcontra; rw [hcontra] at hs1; exact absurd hs1 (by simp)
      · intro _ _
        refine ⟨finalHeaders (Response.status r1 500).headers
          (bodyBytes (SendData.sStr ("Internal Server Error".data))).length, ?_⟩
        show (Response.status r1 500).wire ++ _ = _
        rw [hwst, hw1]
        rfl
      · intro _ hcontra; exact absurd hcontra (by simp)
    | inr hc =>
      obtain ⟨hs1, blob⟩ := hc
      have hst : (Response.status r1 500).sent = true := hs1
      rw [Response.send_of_sent _ _ hst]
      have hfs : forceSend (Response.status r1 500) = Response.status r1 500 := by
        simp [forceSend, hst]
      rw [hfs]
      refine ⟨hst, ?_, fun _ => rfl, ?_, ?_⟩
      · obtain ⟨c, t, hs, b, hw⟩ := blob
        exact ⟨c, t, hs, b, hw⟩
      · intro hcontra _; rw [hcontra] at hs1; exact absurd hs1 (by simp)
      · intro hcontra _; rw [hcontra] at hs1; exact absurd hs1 (by simp)

/-- C1 witness: a handler that sets status 201 and returns without
sending; the dispatcher finalizes and exactly one response is on the
wire. -/
theorem claim1_handler_containment_witness :
    (freshResponse none).sent = false
    ∧ Reaches (freshResponse none)
        ((statusOnlyHandler { reqFix with params := [] } (freshResponse none)).1)
    ∧ (invokeRoute statusOnlyHandler reqFix (freshResponse none) []).sent = true
    ∧ ∃ c t hs b,
        (invokeRoute statusOnlyHandler reqFix (freshResponse none) []).wire
          = rendered c t hs b :=
  ⟨rfl, Reaches.status _ _ 201 (Reaches.refl _),
   (claim1_handler_containment statusOnlyHandler reqFix (freshResponse none) [] rfl rfl rfl
      (Reaches.status _ _ 201 (Reaches.refl _))).1,
   (claim1_handler_containment statusOnlyHandler reqFix (freshResponse none) [] rfl rfl rfl
      (Reaches.status _ _ 201 (Reaches.refl _))).2.1⟩

/-- C1 counterexample: a handler that sends a 200 response and then
raises. The dispatcher catches the exception, but its
`res.status(500).send(...)` is a no-op on the already-finalized response,
so the bytes on the wire are a 200 response and no 500 response is ever
sent — refuting "if the handler raises any exception the dispatcher sends
a response with status 500" as universally stated. -/
theorem claim1_counterexample :
    (sendThenRaiseHandler { reqFix with params := [] } (freshResponse none)).2 = some ()
    ∧ bytesContains (invokeRoute sendThenRaiseHandler reqFix (freshResponse none) []).wire
        (utf8 ("HTTP/1.1 200".data)) = true
    ∧ bytesContains (invokeRoute sendThenRaiseHandler reqFix (freshResponse none) []).wire
        (utf8 ("HTTP/1.1 500".data)) = false :=
  ⟨rfl, by decide, by decide⟩

/-! ### C4 -/

theorem routesGet_append (rs : List (Str × List (RoutePat × Handler))) (m : Str)
    (e : RoutePat × Handler) (m' : Str) :
    routesGet (routesAppend rs m e) m'
      = if m = m' then routesGet rs m' ++ [e] else routesGet rs m' := by
  induction rs with
  | nil =>
    by_cases h : m = m'
    · simp [routesAppend, routesGet, h]
    · simp [routesAppend, routesGet, h]
  | cons kv rest ih =>
    obtain ⟨m1, l⟩ := kv
    by_cases h1 : m1 = m
    · rw [h1]
      by_cases h2 : m = m'
      · simp [routesAppend, routesGet, h2]
      · simp [routesAppend, routesGet, h2]
    · by_cases h2 : m1 = m'
      · have hmm : ¬(m = m') := fun hh => h1 (h2.trans hh.symm)
        have hmm2 : ¬(m' = m) := fun hh => hmm hh.symm
        simp [routesAppend, routesGet, h1, h2, hmm, hmm2]
      · simp [routesAppend, routesGet, h1, h2, ih]

theorem findRoute_append (l1 l2 : List (RoutePat × Handler)) (p : Str) :
    findRoute (l1 ++ l2) p
      = match findRoute l1 p with
        | some x => some x
        | none => findRoute l2 p := by
  induction l1 with
  | nil => simp [findRoute]
  | cons e rest ih =>
    cases hpm : patMatch e.1 p with
    | some ps => simp [findRoute, hpm]
    | none => simp [findRoute, hpm, ih]

theorem buildApp_findRoute (regs : List Registration) (acc : MiniExpress) (m p : Str) :
    findRoute (routesGet (regs.foldl (fun a r => add_route a r.1 r.2.1 r.2.2) acc).routes m) p
      = match findRoute (routesGet acc.routes m) p with
        | some x => some x
        | none => specFirstRoute regs m p := by
  induction regs generalizing acc with
  | nil =>
    cases hf : findRoute (routesGet acc.routes m) p <;> simp [specFirstRoute, hf]
  | cons reg rest ih =>
    obtain ⟨m1, path, hh⟩ := reg
    simp only [List.foldl_cons]
    rw [ih]
    have hadd : (add_route acc m1 path hh).routes
        = routesAppend acc.routes m1 (compileRoute path, hh) := rfl
    rw [hadd, routesGet_append]
    by_cases hm : m1 = m
    · rw [if_pos hm, findRoute_append]
      cases hf : findRoute (routesGet acc.routes m) p with
      | some x => simp [specFirstRoute, hm, hf]
      | none =>
        cases hpm : patMatch (compileRoute path) p with
        | some ps => simp [specFirstRoute, hm, hf, findRoute, hpm]
        | none => simp [specFirstRoute, hm, hf, findRoute, hpm]
    · rw [if_neg hm]
      cases hf : findRoute (routesGet acc.routes m) p with
      | some x => simp [specFirstRoute, hm, hf]
      | none => simp [specFirstRoute, hm, hf]

/-- C4: resolution is deterministic in registration order. For any
registration sequence, the dispatcher's scan — only over the route list
the dict keeps for the request's exact method — returns precisely the
first registration with that method whose compiled matcher accepts the
path (`specFirstRoute`, written from the spec's wording); consequently
`routeStage` invokes that handler, and when two registered templates both
match, the earlier-registered one wins. -/
theorem claim4_route_order (regs : List Registration) (req : Request) (res : Response) :
    findRoute (routesGet (buildApp regs).routes req.method) req.path
      = specFirstRoute regs req.method req.path
    ∧ routeStage (buildApp regs) req res
      = (match specFirstRoute regs req.method req.path with
         | some (e, ps) => invokeRoute e.2 req res ps
         | none => Response.send (Response.status res 404)
                     (SendData.sStr ("Not Found".data))) := by
  have h1 : findRoute (routesGet (buildApp regs).routes req.method) req.path
      = specFirstRoute regs req.method req.path := by
    have hb := buildApp_findRoute regs emptyApp req.method req.path
    simpa [emptyApp, routesGet, findRoute] using hb
  refine ⟨h1, ?_⟩
  unfold routeStage
  rw [h1]

/-! ### C5 -/

theorem hasPfx_iff (l s : Str) : hasPfx l s = true ↔ ∃ t, s = l ++ t := by
  induction l generalizing s with
  | nil => simp [hasPfx]
  | cons c p ih =>
    cases s with
    | nil => simp [hasPfx]
    | cons d t =>
      simp only [hasPfx, Bool.and_eq_true, decide_eq_true_eq, List.cons_append,
        List.cons.injEq, ih]
      constructor
      · rintro ⟨hcd, u, hu⟩
        exact ⟨u, hcd.symm, hu⟩
      · rintro ⟨u, hdc, hu⟩
        exact ⟨hdc.symm, u, hu⟩

theorem mem_takeWhile_pred {p : Char → Bool} {l : Str} {a : Char}
    (h : a ∈ l.takeWhile p) : p a = true := by
  induction l with
  | nil => simp [List.takeWhile] at h
  | cons c rest ih =>
    by_cases hc : p c
    · rw [List.takeWhile_cons_of_pos hc] at h
      cases h with
      | head => exact hc
      | tail _ hm => exact ih hm
    · rw [List.takeWhile_cons_of_neg hc] at h
      simp at h

theorem takeWhile_append_stop {p : Char → Bool} (v t : Str)
    (hv : ∀ c ∈ v, p c = true) (ht : ∀ c ∈ t.take 1, p c = false) :
    (v ++ t).takeWhile p = v ∧ (v ++ t).dropWhile p = t := by
  induction v with
  | nil =>
    cases t with
    | nil => simp
    | cons c rest =>
      have hc : p c = false := ht c (by simp)
      constructor
      · rw [List.nil_append, List.takeWhile_cons_of_neg (by simp [hc])]
      · rw [List.nil_append, List.dropWhile_cons_of_neg (by simp [hc])]
  | cons c v1 ih =>
    have hc : p c = true := hv c (by simp)
    obtain ⟨ih1, ih2⟩ := ih (fun x hx => hv x (List.mem_cons_of_mem c hx))
    constructor
    · rw [List.cons_append, List.takeWhile_cons_of_pos hc, ih1]
    · rw [List.cons_append, List.dropWhile_cons_of_pos hc, ih2]

theorem matchSegs_lit_iff (l : Str) (rest : List Seg) (cs : Str)
    (ps : List (Str × Str)) :
    matchSegs (Seg.lit l :: rest) cs = some ps
      ↔ ∃ t, cs = '/' :: (l ++ t) ∧ matchSegs rest t = some ps := by
  cases cs with
  | nil => simp [matchSegs]
  | cons c cs1 =>
    by_cases hc : c = '/'
    · subst hc
      by_cases hpfx : hasPfx l cs1
      · obtain ⟨t, ht⟩ := (hasPfx_iff l cs1).mp hpfx
        subst ht
        simp [matchSegs, hpfx, List.drop_left]
      · have : ∀ t, ¬('/' :: cs1 = '/' :: (l ++ t)) := by
          intro t hcontra
          apply hpfx
          have : cs1 = l ++ t := by
            injection hcontra
          exact (hasPfx_iff l cs1).mpr ⟨t, this⟩
        simp only [matchSegs, hpfx, Bool.false_eq_true, if_false, if_true]
        constructor
        · intro hcontra; exact absurd hcontra (by simp)
        · rintro ⟨t, hcs, _⟩; exact absurd hcs (this t)
    · simp only [matchSegs, hc, if_false]
      constructor
      · intro hcontra; exact absurd hcontra (by simp)
      · rintro ⟨t, hcs, _⟩
        have : c = '/' := by injection hcs
        exact absurd this hc

theorem matchSegs_nil_eq (cs : Str) :
    matchSegs [] cs = if cs = [] ∨ cs = ['/'] then some [] else none := rfl

theorem matchSegs_capture_cons (n : Str) (rest : List Seg) (c : Char) (cs1 : Str) :
    matchSegs (Seg.capture n :: rest) (c :: cs1)
      = if c = '/' then
          (if cs1.takeWhile (fun ch => decide (ch ≠ '/')) = [] then none
           else
             match matchSegs rest (cs1.dropWhile (fun ch => decide (ch ≠ '/'))) with
             | some ps => some ((n, cs1.takeWhile (fun ch => decide (ch ≠ '/'))) :: ps)
             | none => none)
        else none := rfl

theorem matchSegs_capture_last (n : Str) (cs : Str) (ps : List (Str × Str)) :
    matchSegs [Seg.capture n] cs = some ps
      ↔ ∃ v, ps = [(n, v)] ∧ v ≠ [] ∧ (∀ c ∈ v, c ≠ '/')
          ∧ (cs = '/' :: v ∨ cs = '/' :: v ++ ['/']) := by
  constructor
  · intro h
    cases cs with
    | nil =>
      rw [show matchSegs [Seg.capture n] ([] : Str) = none from rfl] at h
      exact absurd h (by simp)
    | cons c cs1 =>
      rw [matchSegs_capture_cons] at h
      by_cases hc : c = '/'
      · rw [if_pos hc] at h
        by_cases hv : cs1.takeWhile (fun ch => decide (ch ≠ '/')) = []
        · rw [if_pos hv] at h
          exact absurd h (by simp)
        · rw [if_neg hv] at h
          cases hend : matchSegs [] (cs1.dropWhile (fun ch => decide (ch ≠ '/'))) with
          | none =>
            rw [hend] at h
            exact absurd h (by simp)
          | some ps1 =>
            rw [hend] at h
            have hps : ps = (n, cs1.takeWhile (fun ch => decide (ch ≠ '/'))) :: ps1 := by
              injection h with h2
              exact h2.symm
            have hdw : cs1.dropWhile (fun ch => decide (ch ≠ '/')) = []
                ∨ cs1.dropWhile (fun ch => decide (ch ≠ '/')) = ['/'] := by
              by_contra hcase
              rw [matchSegs_nil_eq, if_neg hcase] at hend
              exact absurd hend (by simp)
            have hps1 : ps1 = [] := by
              rw [matchSegs_nil_eq, if_pos hdw] at hend
              injection hend with h3
              exact h3.symm
            subst hc
            refine ⟨cs1.takeWhile (fun ch => decide (ch ≠ '/')),
              by rw [hps, hps1], hv, ?_, ?_⟩
            · intro x hx
              have := mem_takeWhile_pred hx
              simpa using this
            · have hsplit := List.takeWhile_append_dropWhile
                (p := fun ch => decide (ch ≠ '/')) (l := cs1)
              cases hdw with
              | inl hd =>
                left
                rw [hd, List.append_nil] at hsplit
                rw [hsplit]
              | inr hd =>
                right
                rw [hd] at hsplit
                rw [List.cons_append, hsplit]
      · rw [if_neg hc] at h
        exact absurd h (by simp)
  · rintro ⟨v, hps, hv, hvs, hcs⟩
    have hvp : ∀ c ∈ v, (fun ch => decide (ch ≠ '/')) c = true := by
      intro c hcv
      simp [hvs c hcv]
    subst hps
    cases hcs with
    | inl hd =>
      subst hd
      rw [matchSegs_capture_cons, if_pos rfl]
      obtain ⟨htw, hdw⟩ := takeWhile_append_stop v [] hvp (by intro c hcc; simp at hcc)
      rw [List.append_nil] at htw hdw
      rw [htw, hdw, if_neg hv, matchSegs_nil_eq]
      rfl
    | inr hd =>
      subst hd
      rw [show ('/' :: v ++ ['/'] : Str) = '/' :: (v ++ ['/']) from rfl]
      rw [matchSegs_capture_cons, if_pos rfl]
      obtain ⟨htw, hdw⟩ := takeWhile_append_stop v ['/'] hvp
        (by intro c hcc; simp at hcc; simp [hcc])
      rw [htw, hdw, if_neg hv, matchSegs_nil_eq]
      rfl

/-- C5 (amended): for the framework-compiled template `/user/:id`, a path
matches exactly when it is `/user/` followed by one non-empty slash-free
segment (an optional trailing slash tolerated), and `params` binds `id`
to that segment RAW — no percent-decoding of any kind is applied to path
parameters (unlike query parsing, which percent-plus-decodes). -/
theorem claim5_path_param_raw (p : Str) (ps : List (Str × Str)) :
    patMatch (compileRoute ("/user/:id".data)) p = some ps
      ↔ ∃ v, ps = [(("id".data), v)] ∧ v ≠ [] ∧ (∀ c ∈ v, c ≠ '/')
          ∧ (p = "/user/".data ++ v ∨ p = "/user/".data ++ v ++ ['/']) := by
  have hcomp : compileRoute ("/user/:id".data)
      = RoutePat.segs [Seg.lit ("user".data), Seg.capture ("id".data)] := rfl
  rw [hcomp]
  show matchSegs [Seg.lit ("user".data), Seg.capture ("id".data)] p = some ps ↔ _
  rw [matchSegs_lit_iff]
  constructor
  · rintro ⟨t, hp, hm⟩
    obtain ⟨v, hps, hv, hvs, ht⟩ := (matchSegs_capture_last ("id".data) t ps).mp hm
    refine ⟨v, hps, hv, hvs, ?_⟩
    cases ht with
    | inl hd => left; rw [hp, hd]; rfl
    | inr hd => right; rw [hp, hd]; rfl
  · rintro ⟨v, hps, hv, hvs, hp⟩
    cases hp with
    | inl hd =>
      refine ⟨'/' :: v, by rw [hd]; rfl, ?_⟩
      exact (matchSegs_capture_last ("id".data) ('/' :: v) ps).mpr
        ⟨v, hps, hv, hvs, Or.inl rfl⟩
    | inr hd =>
      refine ⟨'/' :: v ++ ['/'], by rw [hd]; rfl, ?_⟩
      exact (matchSegs_capture_last ("id".data) ('/' :: v ++ ['/']) ps).mpr
        ⟨v, hps, hv, hvs, Or.inr rfl⟩

/-- C5 counterexample: the compiled matcher binds `id` to the raw segment
`a%20b`; decoding "consistently with query parsing" (`unquote_plus`)
would give `a b`, so no percent-decoding is in fact applied to path
parameters. The empty-segment non-match holds. -/
theorem claim5_counterexample :
    patMatch (compileRoute ("/user/:id".data)) ("/user/a%20b".data)
      = some [(("id".data), ("a%20b".data))]
    ∧ unquote_plus ("a%20b".data) = "a b".data
    ∧ ("a%20b".data : Str) ≠ ("a b".data)
    ∧ patMatch (compileRoute ("/user/:id".data)) ("/user/".data) = none :=
  ⟨by decide, by decide, by decide, by decide⟩

/-! ### C6 -/

/-- C6 (amended): for a non-empty body with a JSON content type, decoding
is total (no exception can propagate: the type is `BodyVal`, not an
`Except`): a successful `json.loads` yields the parsed value tree, a
failed one falls open to the body decoded as UTF-8 with invalid
sequences IGNORED (dropped) — `errors='ignore'`, not `errors='replace'`
as the claim says. -/
theorem claim6_json_body_fail_open (hdrs : List (Str × Str)) (body : Bytes) (ct : Str)
    (hct : dictGetD hdrs ("Content-Type".data) [] = ct)
    (hjson : strContains ct ("application/json".data) = true)
    (hne : body ≠ []) :
    requestBody hdrs body
      = (match jsonLoads body with
         | some v => BodyVal.jsonV v
         | none => BodyVal.textV (decodeUtf8Ignore body)) := by
  unfold requestBody
  rw [if_neg hne, hct]
  unfold decodeBody
  rw [if_pos hjson]

/-- C6 witness: a well-formed JSON body parses to its value tree. -/
theorem claim6_json_body_fail_open_witness :
    dictGetD [(("Content-Type".data), ("application/json".data))] ("Content-Type".data) []
      = ("application/json".data)
    ∧ strContains ("application/json".data) ("application/json".data) = true
    ∧ utf8 ("[1, 2]".data) ≠ []
    ∧ requestBody [(("Content-Type".data), ("application/json".data))] (utf8 ("[1, 2]".data))
        = (match jsonLoads (utf8 ("[1, 2]".data)) with
           | some v => BodyVal.jsonV v
           | none => BodyVal.textV (decodeUtf8Ignore (utf8 ("[1, 2]".data))))
    ∧ jsonLoads (utf8 ("[1, 2]".data))
        = some (Jv.jarr [Jv.jnum ("1".data), Jv.jnum ("2".data)]) :=
  ⟨rfl, by decide, by decide,
   claim6_json_body_fail_open _ _ _ rfl (by decide) (by decide), rfl⟩

/-- C6 counterexample: the byte body `FF 7B` under a JSON content type
fails to parse; the decoded value is the `errors='ignore'` text (the
invalid byte dropped), which differs from the `errors='replace'` text
(U+FFFD inserted) the claim asserts. -/
theorem claim6_counterexample :
    requestBody [(("Content-Type".data), ("application/json".data))] [0xFF, 0x7B]
      = BodyVal.textV (decodeUtf8Ignore [0xFF, 0x7B])
    ∧ decodeUtf8Ignore [0xFF, 0x7B] = [Char.ofNat 123]
    ∧ decodeUtf8Replace [0xFF, 0x7B] = [Char.ofNat 0xFFFD, Char.ofNat 123]
    ∧ decodeUtf8Ignore [0xFF, 0x7B] ≠ decodeUtf8Replace [0xFF, 0x7B] :=
  ⟨rfl, by decide, by decide, by decide⟩

/-! ### C7 -/

theorem qsAdd_get (d : List (Str × List Str)) (k v k' : Str) :
    qdictGet? (qsAdd d k v) k'
      = if k' = k then some ((qdictGet? d k').getD [] ++ [v]) else qdictGet? d k' := by
  induction d with
  | nil =>
    by_cases h : k' = k
    · rw [h]; simp [qsAdd, qdictGet?]
    · have h2 : ¬(k = k') := fun hh => h hh.symm
      simp [qsAdd, qdictGet?, h, h2]
  | cons kv rest ih =>
    obtain ⟨k1, vs⟩ := kv
    by_cases h1 : k1 = k
    · rw [h1]
      by_cases h2 : k = k'
      · rw [← h2]
        simp [qsAdd, qdictGet?]
      · have h3 : ¬(k' = k) := fun hh => h2 hh.symm
        simp [qsAdd, qdictGet?, h2, h3]
    · by_cases h2 : k1 = k'
      · rw [h2]
        have h3 : ¬(k' = k) := fun hh => h1 (h2.trans hh)
        simp [qsAdd, qdictGet?, h1, h3, fun hh : k = k' => h3 hh.symm]
      · simp [qsAdd, qdictGet?, h1, h2, ih]

theorem foldl_qsAdd_get (l : List (Str × Str)) (d0 : List (Str × List Str)) (k : Str) :
    qdictGet? (l.foldl (fun d kv => qsAdd d kv.1 kv.2) d0) k
      = (match qdictGet? d0 k with
         | some vs0 => some (vs0 ++ valsOf l k)
         | none => if valsOf l k = [] then none else some (valsOf l k)) := by
  induction l generalizing d0 with
  | nil =>
    cases h0 : qdictGet? d0 k <;> simp [valsOf, h0]
  | cons kv l ih =>
    obtain ⟨k1, v1⟩ := kv
    simp only [List.foldl_cons]
    rw [ih]
    by_cases hk : k1 = k
    · rw [hk]
      rw [qsAdd_get]
      simp only [if_pos rfl]
      have hvals : valsOf ((k, v1) :: l) k = v1 :: valsOf l k := by
        simp [valsOf]
      rw [hvals]
      cases h0 : qdictGet? d0 k with
      | some vs0 => simp
      | none => simp
    · rw [qsAdd_get]
      have hne : ¬(k = k1) := fun hh => hk hh.symm
      rw [if_neg hne]
      have hvals : valsOf ((k1, v1) :: l) k = valsOf l k := by
        simp [valsOf, hk]
      rw [hvals]

theorem map_collapse_get (d : List (Str × List Str)) (k : Str) :
    queryGet? (d.map (fun kv => (kv.1, collapseVals kv.2))) k
      = (qdictGet? d k).map collapseVals := by
  induction d with
  | nil => simp [queryGet?, qdictGet?]
  | cons kv rest ih =>
    obtain ⟨k1, vs⟩ := kv
    by_cases h : k1 = k <;> simp [queryGet?, qdictGet?, h, ih]

/-- C7 (amended): the query map built by the request constructor maps a
key exactly according to the pairs `parse_qsl` KEEPS (fields without `=`
and fields with an empty value are dropped by the stdlib defaults): no
kept occurrence means the key is absent, one kept occurrence unwraps to a
scalar, several collect into the ordered list of kept values; decoding of
kept pairs is standard percent-plus decoding. The spec's round-trip
example holds as stated. -/
theorem claim7_query_collection (qs k : Str) :
    queryGet? (queryOf qs) k
      = (match valsOf (parse_qsl qs) k with
         | [] => none
         | vs => some (collapseVals vs))
    ∧ queryOf ("message=hi&tag=a&tag=b".data)
        = [(("message".data), QueryVal.scalar ("hi".data)),
           (("tag".data), QueryVal.multi [("a".data), ("b".data)])] := by
  constructor
  · unfold queryOf
    by_cases hq : qs = []
    · rw [if_pos hq, hq]
      have hpq : parse_qsl ([] : Str) = [] := rfl
      rw [hpq]
      simp [queryGet?, valsOf]
    · rw [if_neg hq]
      unfold parse_qs
      rw [map_collapse_get, foldl_qsAdd_get]
      have h0 : qdictGet? [] k = none := rfl
      rw [h0]
      cases hv : valsOf (parse_qsl qs) k with
      | nil => simp
      | cons a as => simp
  · decide

/-- C7 counterexample: in `a=1&a=` the key `a` occurs twice, but the
blank-valued occurrence is dropped by `parse_qs`, so the query map holds
the scalar `"1"`, not the ordered sequence of all its values `["1", ""]`
the claim requires for a repeated key. -/
theorem claim7_counterexample :
    countKeyOccurrences ("a=1&a=".data) ("a".data) = 2
    ∧ queryOf ("a=1&a=".data) = [(("a".data), QueryVal.scalar ("1".data))]
    ∧ queryOf ("a=1&a=".data) ≠ [(("a".data), QueryVal.multi [("1".data), []])] :=
  ⟨by decide, by decide, by decide⟩

/-! ### C8 -/

/-- C8: (i) the static loop consults only the first mapping whose prefix
starts the path — everything after it is dead, whatever the filesystem
says (the `break` sits inside the prefix test); (ii) when that mapping's
resolved target does not exist, the static layer yields no response; and
(iii) whenever the static layer yields no response the dispatcher
proceeds to dynamic routing (`routeStage`) rather than answering 404
itself. -/
theorem claim8_static_resolution :
    (∀ (fs : FS) (pre : List (Str × Str)) (pfx dir : Str) (post : List (Str × Str))
       (req : Request) (res : Response), hasPfx pfx req.path = true →
       staticStage fs (pre ++ (pfx, dir) :: post) req res
         = staticStage fs (pre ++ [(pfx, dir)]) req res)
    ∧ (∀ (fs : FS) (pfx dir : Str) (req : Request) (res : Response),
        fs.readF (staticTarget fs dir pfx req.path) = FileRes.absent →
        serveStatic fs pfx dir req res = none)
    ∧ (∀ (fs : FS) (app : MiniExpress) (req : Request) (res : Response),
        staticStage fs app.static_routes req res = none →
        staticOrRoute fs app req res = routeStage app req res) := by
  refine ⟨?_, ?_, ?_⟩
  · intro fs pre pfx dir post req res hmatch
    induction pre with
    | nil => simp [staticStage, hmatch]
    | cons e rest ih =>
      obtain ⟨q, d2⟩ := e
      by_cases hq : hasPfx q req.path = true
      · simp [staticStage, hq]
      · simp only [List.cons_append, staticStage]
        rw [if_neg hq, if_neg hq]
        exact ih
  · intro fs pfx dir req res habs
    simp only [serveStatic]
    rw [habs]
  · intro fs app req res hnone
    unfold staticOrRoute
    rw [hnone]

/-- C8 witness: two mappings registered under the same prefix `/static`;
the first matches and its file is missing, so the scan stops at the first
mapping, serves nothing, and the dispatcher falls through to routing. -/
theorem claim8_static_resolution_witness :
    hasPfx ("/static".data) reqStatic.path = true
    ∧ staticStage fsEmpty
        ([] ++ (("/static".data), ("./pub1".data)) :: [(("/static".data), ("./pub2".data))])
        reqStatic (freshResponse none)
      = staticStage fsEmpty ([] ++ [(("/static".data), ("./pub1".data))])
          reqStatic (freshResponse none)
    ∧ fsEmpty.readF (staticTarget fsEmpty ("./pub1".data) ("/static".data) reqStatic.path)
        = FileRes.absent
    ∧ serveStatic fsEmpty ("/static".data) ("./pub1".data) reqStatic (freshResponse none) = none
    ∧ staticStage fsEmpty appStatic.static_routes reqStatic (freshResponse none) = none
    ∧ staticOrRoute fsEmpty appStatic reqStatic (freshResponse none)
        = routeStage appStatic reqStatic (freshResponse none) :=
  ⟨by decide,
   claim8_static_resolution.1 fsEmpty [] ("/static".data) ("./pub1".data)
     [(("/static".data), ("./pub2".data))] reqStatic (freshResponse none) (by decide),
   rfl,
   claim8_static_resolution.2.1 fsEmpty ("/static".data) ("./pub1".data) reqStatic
     (freshResponse none) rfl,
   rfl,
   claim8_static_resolution.2.2 fsEmpty appStatic reqStatic (freshResponse none) rfl⟩

/-! ### C9 -/

theorem readHeadersGo_error (fuel : Nat) (bs : Bytes) (acc : List (Str × Str)) (e : PyErr)
    (h : readHeadersGo fuel bs acc = Except.error e) : e = PyErr.unicodeDecodeError := by
  induction fuel generalizing bs acc with
  | zero => exact absurd h (by simp [readHeadersGo])
  | succ f ih =>
    simp only [readHeadersGo] at h
    cases hdec : decodeUtf8Strict (readLine bs).1 with
    | none =>
      simp only [hdec] at h
      injection h with h2
      exact h2.symm
    | some hline =>
      simp only [hdec] at h
      by_cases hblank : hline = [] ∨ hline = "\r\n".data ∨ hline = "\n".data
      · rw [if_pos hblank] at h
        exact absurd h (by simp)
      · rw [if_neg hblank] at h
        by_cases hcolon : ':' ∈ hline
        · rw [if_pos hcolon] at h
          cases hsp : splitFirst ':' hline with
          | some pr =>
            obtain ⟨n2, v2⟩ := pr
            simp only [hsp] at h
            exact ih _ _ h
          | none =>
            simp only [hsp] at h
            exact ih _ _ h
        · rw [if_neg hcolon] at h
          exact ih _ _ h

/-- C9 (amended): the dispatcher absorbs parsing-level failures — bad
query strings, malformed JSON bodies, unreadable static files, handler
errors all end in a response, and a malformed request line ends in a
silent close — with exactly two exceptions that escape `handle_request`
uncaught: a header line that is not valid UTF-8 (`UnicodeDecodeError`
from the header loop) and a present `Content-Length` whose value `int()`
rejects (`ValueError`), both aborting the dispatcher with no response. -/
theorem claim9_parse_error_provenance (app : MiniExpress) (fs : FS) (brk : Option Nat)
    (input : Bytes) (e : PyErr)
    (herr : handle_request app fs brk input = Except.error e) :
    ∃ m rp rest1, parseReqLine input = some (m, rp, rest1)
      ∧ ((e = PyErr.unicodeDecodeError
          ∧ headersPhase rest1 = Except.error PyErr.unicodeDecodeError)
         ∨ (e = PyErr.valueError
            ∧ ∃ hs rest2, headersPhase rest1 = Except.ok (hs, rest2)
                ∧ dictMem hs ("Content-Length".data) = true
                ∧ pyInt (dictGetD hs ("Content-Length".data) []) = none)) := by
  cases hpl : parseReqLine input with
  | none =>
    simp only [handle_request, hpl] at herr
    exact absurd herr (by simp)
  | some tri =>
    obtain ⟨m, rp, rest1⟩ := tri
    simp only [handle_request, hpl] at herr
    refine ⟨m, rp, rest1, rfl, ?_⟩
    cases hhp : headersPhase rest1 with
    | error e1 =>
      simp only [hhp] at herr
      injection herr with h2
      have he1 : e1 = PyErr.unicodeDecodeError := readHeadersGo_error _ _ _ _ hhp
      left
      constructor
      · rw [← h2]; exact he1
      · rw [he1]
    | ok pr =>
      obtain ⟨hs, rest2⟩ := pr
      simp only [hhp] at herr
      simp only [bodyPhase] at herr
      by_cases hmem : dictMem hs ("Content-Length".data) = true
      · rw [if_pos hmem] at herr
        cases hpi : pyInt (dictGetD hs ("Content-Length".data) []) with
        | none =>
          simp only [hpi] at herr
          have he : e = PyErr.valueError := by
            injection herr with h2
            exact h2.symm
          right
          exact ⟨he, hs, rest2, rfl, hmem, hpi⟩
        | some n =>
          simp only [hpi] at herr
          exact absurd herr (by simp)
      · rw [if_neg hmem] at herr
        simp at herr

/-- C9 witness: the header value `12x` fails `int()`, and the theorem
pins the escaped exception to exactly that site. -/
theorem claim9_parse_error_provenance_witness :
    handle_request emptyApp fsEmpty none inputBadCL = Except.error PyErr.valueError
    ∧ ∃ m rp rest1, parseReqLine inputBadCL = some (m, rp, rest1)
      ∧ ((PyErr.valueError = PyErr.unicodeDecodeError
          ∧ headersPhase rest1 = Except.error PyErr.unicodeDecodeError)
         ∨ (PyErr.valueError = PyErr.valueError
            ∧ ∃ hs rest2, headersPhase rest1 = Except.ok (hs, rest2)
                ∧ dictMem hs ("Content-Length".data) = true
                ∧ pyInt (dictGetD hs ("Content-Length".data) []) = none)) :=
  ⟨rfl, claim9_parse_error_provenance emptyApp fsEmpty none inputBadCL PyErr.valueError rfl⟩

/-- C9 counterexample: `Content-Length: abc` makes the dispatcher raise
an uncaught `ValueError` — it aborts with no response written, refuting
the claim that this parsing error is absorbed with a safe fallback. -/
theorem claim9_counterexample :
    handle_request emptyApp fsEmpty none inputAbcCL = Except.error PyErr.valueError := rfl

/-! ### C10 -/

/-- C10: the static layer joins the configured directory with the raw
path suffix, stripping only leading slashes and never filtering `..`
segments: for the request path `/static/../secret.txt` under prefix
`/static` with directory `./static`, the opened path is
`./static/../secret.txt`, which still contains a `..` segment and
normalizes to `secret.txt` — outside the configured directory. -/
theorem claim10_path_traversal :
    hasPfx ("/static".data) ("/static/../secret.txt".data) = true
    ∧ staticFilePath ("./static".data) ("/static".data) ("/static/../secret.txt".data)
        = ("./static/../secret.txt".data)
    ∧ ("..".data) ∈ pathSegs
        (staticFilePath ("./static".data) ("/static".data) ("/static/../secret.txt".data))
    ∧ normPath (staticFilePath ("./static".data) ("/static".data)
        ("/static/../secret.txt".data)) = ("secret.txt".data)
    ∧ insideDir ("./static".data)
        (staticFilePath ("./static".data) ("/static".data) ("/static/../secret.txt".data))
        = false :=
  ⟨by decide, by decide, by decide, by decide, by decide⟩
